import Mathlib

/-!
Verification of the tenant-ordered messaging and request-safety layer of the
DocumentAPI repository, as a shallow embedding in Lean.

Each section embeds one component from the TypeScript source:
* `FifoQueueService.generateSessionId` / `sendMessage` (fifoQueue service),
* `processBatchMessages` / `processBatchWebhookMessage` (batchProcessor.ts),
* `idempotencyMiddleware` (idempotency middleware),
* `authMiddleware` (auth middleware) and the `submitDemographics` Azure handler,
* `DatabaseService.getDemographicById` and the demographics `GET /:id` route.

External collaborators (the Service Bus broker, the SQL store, the HTTP stack,
`crypto.createHmac`, `Date`) are modelled as explicit oracle parameters; the
logic under verification is translated statement by statement from the source.
-/

namespace DocumentAPI

/-! ## Session keys — `FifoQueueService.generateSessionId`

Source (fifoQueue service):
`return [dollar-brace]type[brace]_[dollar-brace]identifier.toLowerCase().replace(/[^a-z0-9]/g, '_')[brace];`
i.e. the queue type as given, an underscore, then the tenant identifier
lowercased with every character outside `[a-z0-9]` replaced by an underscore.
-/

/-- The regex character class `[a-z0-9]`: code points of `a`..`z` or `0`..`9`. -/
def isLowerAlnum (c : Char) : Bool :=
  (97 ≤ c.toNat && c.toNat ≤ 122) || (48 ≤ c.toNat && c.toNat ≤ 57)

/-- `identifier.toLowerCase()` (ASCII case folding, as `Char.toLower`). -/
def jsToLowerCase (s : String) : String :=
  String.mk (s.data.map Char.toLower)

/-- `.replace(/[^a-z0-9]/g, '_')`: every character outside `[a-z0-9]` becomes `_`. -/
def replaceNonAlnum (s : String) : String :=
  String.mk (s.data.map (fun c => if isLowerAlnum c then c else '_'))

/-- `FifoQueueService.generateSessionId(type, identifier)`. -/
def generateSessionId (queueType identifier : String) : String :=
  queueType ++ "_" ++ replaceNonAlnum (jsToLowerCase identifier)

/-- The session key as the spec's words describe it (for comparison with
`generateSessionId`): `lowercase(domain) + "_" + normalize(tenantId)` where
normalization *strips* (removes) non-alphanumeric characters. -/
def specSessionId (domain tenantId : String) : String :=
  jsToLowerCase domain ++ "_" ++ String.mk (tenantId.data.filter (fun c => c.isAlphanum))

/-- The amended description of the session key: the domain string as given,
then `_`, then the tenant identifier with each character ASCII-lowercased and
then replaced by `_` whenever the result lies outside `[a-z0-9]`. -/
def amendedSessionKeySpec (domain tenantId : String) : String :=
  domain ++ "_" ++ String.mk (tenantId.data.map (fun c =>
    if isLowerAlnum (Char.toLower c) then Char.toLower c else '_'))

theorem toLower_of_isLowerAlnum (c : Char) (h : isLowerAlnum c = true) :
    Char.toLower c = c := by
  simp only [isLowerAlnum, Bool.or_eq_true, Bool.and_eq_true, decide_eq_true_eq] at h
  simp only [Char.toLower]
  rw [if_neg]
  omega

theorem replaceNonAlnum_fixed (s : String) (h : ∀ c ∈ s.data, isLowerAlnum c = true) :
    replaceNonAlnum s = s := by
  cases s with
  | mk data =>
    simp only [replaceNonAlnum]
    congr 1
    simp only at h
    induction data with
    | nil => rfl
    | cons c cs ih =>
      simp only [List.map_cons, List.cons.injEq]
      constructor
      · rw [if_pos (h c (List.mem_cons_self c cs))]
      · exact ih (fun d hd => h d (List.mem_cons_of_mem c hd))

theorem jsToLowerCase_fixed (s : String) (h : ∀ c ∈ s.data, isLowerAlnum c = true) :
    jsToLowerCase s = s := by
  cases s with
  | mk data =>
    simp only [jsToLowerCase]
    congr 1
    simp only at h
    induction data with
    | nil => rfl
    | cons c cs ih =>
      simp only [List.map_cons, List.cons.injEq]
      constructor
      · exact toLower_of_isLowerAlnum c (h c (List.mem_cons_self c cs))
      · exact ih (fun d hd => h d (List.mem_cons_of_mem c hd))

theorem string_append_left_cancel (a b c : String) (h : a ++ b = a ++ c) : b = c := by
  cases b with
  | mk bd =>
    cases c with
    | mk cd =>
      have hd : (a ++ ⟨bd⟩ : String).data = (a ++ ⟨cd⟩ : String).data := by rw [h]
      rw [String.data_append, String.data_append] at hd
      have : bd = cd := List.append_cancel_left hd
      rw [this]

/-- C1 counterexample: the two distinct tenant identifiers `a-b` and `a.b`
receive the same session key in the `demographics` domain, so the session-key
function is not injective across distinct tenants of one domain. -/
theorem c1_counterexample :
    "a-b" ≠ "a.b" ∧
    generateSessionId "demographics" "a-b" = generateSessionId "demographics" "a.b" := by
  decide

/-- C1 (amended): `generateSessionId` is a pure (hence deterministic) function
of the queue domain and tenant identifier, and restricted to tenant identifiers
built from the characters `[a-z0-9]` — identifiers the normalization leaves
unchanged — it is injective across distinct tenants of one domain.  (Distinct
tenants whose normalizations collide, e.g. `a-b` and `a.b`, share a key.) -/
theorem c1_amended (domain t1 t2 : String)
    (h1 : ∀ c ∈ t1.data, isLowerAlnum c = true)
    (h2 : ∀ c ∈ t2.data, isLowerAlnum c = true)
    (hne : t1 ≠ t2) :
    generateSessionId domain t1 ≠ generateSessionId domain t2 := by
  intro heq
  apply hne
  simp only [generateSessionId] at heq
  rw [jsToLowerCase_fixed t1 h1, replaceNonAlnum_fixed t1 h1,
    jsToLowerCase_fixed t2 h2, replaceNonAlnum_fixed t2 h2] at heq
  exact string_append_left_cancel (domain ++ "_") _ _ heq

theorem c1_amended_witness :
    (∀ c ∈ "a1".data, isLowerAlnum c = true) ∧
    (∀ c ∈ "b2".data, isLowerAlnum c = true) ∧
    "a1" ≠ "b2" ∧
    generateSessionId "demographics" "a1" ≠ generateSessionId "demographics" "b2" :=
  ⟨by decide, by decide, by decide,
    c1_amended "demographics" "a1" "b2" (by decide) (by decide) (by decide)⟩

/-- C2 counterexample: for domain `demographics` and tenant `a-b`, the enqueue
session key is `demographics_a_b` (the hyphen is replaced by `_`), while the
claimed key — lowercased domain plus `_` plus the tenant with non-alphanumerics
stripped — is `demographics_ab`; the two differ. -/
theorem c2_counterexample :
    generateSessionId "demographics" "a-b" = "demographics_a_b" ∧
    specSessionId "demographics" "a-b" = "demographics_ab" ∧
    generateSessionId "demographics" "a-b" ≠ specSessionId "demographics" "a-b" := by
  decide

/-- C2 (amended): for every domain string and tenant identifier, the session
key computed at enqueue equals the domain as given (not lowercased), followed
by `_`, followed by the tenant identifier in which each character is
ASCII-lowercased and then replaced by `_` (not removed) when it falls outside
`[a-z0-9]`. -/
theorem c2_amended (domain tenantId : String) :
    generateSessionId domain tenantId = amendedSessionKeySpec domain tenantId := by
  simp only [generateSessionId, amendedSessionKeySpec, replaceNonAlnum, jsToLowerCase,
    List.map_map]
  rfl

/-! ## Batch consumer — `processBatchMessages` (batchProcessor.ts)

The handler oracle embeds `processBatchMessage`: `.ok` when the dispatched
processing returns, `.error` when it throws.  The chunk loop
`for (let i = 0; i < messages.length; i += concurrencyLimit)` slices the batch
into chunks of `concurrencyLimit = 8`; each chunk is mapped through an async
callback whose `catch` turns a throw into a *fulfilled* promise carrying
`success: false`; `Promise.allSettled` then waits for the whole chunk before
the loop advances, and the `Batch completed` log counts the settled results by
promise status.
-/

/-- The per-message outcome object the callback returns:
`[brace] success, index [brace]`. -/
structure MsgOutcome where
  success : Bool
  index : Nat
deriving DecidableEq

/-- A settled promise as `Promise.allSettled` reports it. -/
inductive Settled (α : Type) where
  | fulfilled (value : α)
  | rejected (reason : String)
deriving DecidableEq

/-- Whether the embedded `processBatchMessage` returns without throwing. -/
def successFlag (handler : α → Except String Unit) (m : α) : Bool :=
  match handler m with
  | .ok _ => true
  | .error _ => false

/-- The async callback `batch.map(async (message, index) => ...)`: the `try`
returns `[brace]success: true, index[brace]`, the `catch` logs and returns
`[brace]success: false, index, error[brace]` — so the promise is fulfilled in
both branches and never rejected. -/
def innerCallback (handler : α → Except String Unit) (message : α) (index : Nat) :
    Settled MsgOutcome :=
  match handler message with
  | .ok _ => .fulfilled ⟨true, index⟩
  | .error _ => .fulfilled ⟨false, index⟩

/-- The chunking loop, fuelled by the list length:
`for (i = 0; i < messages.length; i += n) batches.push(messages.slice(i, i + n))`. -/
def chunksGo (n : Nat) : Nat → List α → List (List α)
  | 0, _ => []
  | _, [] => []
  | fuel + 1, x :: xs => (x :: xs).take n :: chunksGo n fuel ((x :: xs).drop n)

/-- The chunks of `l`, `n` messages at a time. -/
def chunkList (n : Nat) (l : List α) : List (List α) :=
  chunksGo n l.length l

/-- The settled results of one chunk: `await Promise.allSettled(promises)`. -/
def chunkResults (handler : α → Except String Unit) (batch : List α) :
    List (Settled MsgOutcome) :=
  batch.enum.map (fun p => innerCallback handler p.2 p.1)

/-- `results.filter(r => r.status === 'fulfilled').length`. -/
def countFulfilled (rs : List (Settled MsgOutcome)) : Nat :=
  (rs.filter (fun r => match r with | .fulfilled _ => true | .rejected _ => false)).length

/-- The aggregate `(successful, failed)` pair of the `Batch completed` log:
`successful` counts fulfilled results, `failed = results.length - successful`. -/
def chunkLog (handler : α → Except String Unit) (batch : List α) : Nat × Nat :=
  (countFulfilled (chunkResults handler batch),
    (chunkResults handler batch).length - countFulfilled (chunkResults handler batch))

/-- The number of handler invocations in a chunk that actually threw. -/
def thrownCount (handler : α → Except String Unit) (batch : List α) : Nat :=
  (batch.filter (fun m => !successFlag handler m)).length

/-- Observable events of a run: one `invoke` per message (the settlement of its
callback, with the success flag the callback computed) and one `chunkDone` per
chunk (the `Batch completed` log), after the chunk's `allSettled`. -/
inductive BatchEv where
  | invoke (chunkIdx msgIdx : Nat) (success : Bool)
  | chunkDone (chunkIdx successful failed : Nat)
deriving DecidableEq

/-- The chunk an event belongs to. -/
def chunkIdxOf : BatchEv → Nat
  | .invoke k _ _ => k
  | .chunkDone k _ _ => k

/-- The events of one chunk: every message's callback settles, then the
aggregate is logged. -/
def chunkEvents (handler : α → Except String Unit) (k : Nat) (batch : List α) :
    List BatchEv :=
  batch.enum.map (fun p => BatchEv.invoke k p.1 (successFlag handler p.2)) ++
    [BatchEv.chunkDone k (chunkLog handler batch).1 (chunkLog handler batch).2]

/-- The chunk loop `for (const batch of batches)`: chunks run strictly in
order, each one settled (its `chunkDone` emitted) before the next begins. -/
def batchLoop (handler : α → Except String Unit) : Nat → List (List α) → List BatchEv
  | _, [] => []
  | k, b :: bs => chunkEvents handler k b ++ batchLoop handler (k + 1) bs

/-- `processBatchMessages`: slice into chunks of `concurrencyLimit = 8`, then
run the chunk loop. -/
def processBatchMessages (handler : α → Except String Unit) (messages : List α) :
    List BatchEv :=
  batchLoop handler 0 (chunkList 8 messages)

theorem chunksGo_flatten (n : Nat) (hn : 1 ≤ n) :
    ∀ (fuel : Nat) (l : List α), l.length ≤ fuel → (chunksGo n fuel l).flatten = l := by
  intro fuel
  induction fuel with
  | zero =>
    intro l hl
    have : l = [] := List.eq_nil_of_length_eq_zero (Nat.le_zero.mp hl)
    subst this
    rfl
  | succ f ih =>
    intro l hl
    match l with
    | [] => rfl
    | x :: xs =>
      simp only [chunksGo, List.flatten_cons]
      have hlen : ((x :: xs).drop n).length ≤ f := by
        rw [List.length_drop]
        simp only [List.length_cons] at hl ⊢
        omega
      rw [ih _ hlen]
      exact List.take_append_drop n (x :: xs)

theorem chunksGo_mem (n : Nat) (hn : 1 ≤ n) :
    ∀ (fuel : Nat) (l : List α) (c : List α), c ∈ chunksGo n fuel l →
      c.length ≤ n ∧ c ≠ [] := by
  intro fuel
  induction fuel with
  | zero =>
    intro l c hc
    simp [chunksGo] at hc
  | succ f ih =>
    intro l c hc
    match l with
    | [] => simp [chunksGo] at hc
    | x :: xs =>
      simp only [chunksGo, List.mem_cons] at hc
      rcases hc with hc | hc
      · subst hc
        constructor
        · simp only [List.length_take, List.length_cons]
          omega
        · intro hnil
          have : (List.take n (x :: xs)).length = 0 := by rw [hnil]; rfl
          rw [List.length_take] at this
          simp only [List.length_cons] at this
          omega
      · exact ih _ c hc

theorem chunkList_partition (n : Nat) (hn : 1 ≤ n) (l : List α) :
    (chunkList n l).flatten = l ∧ ∀ c ∈ chunkList n l, c.length ≤ n ∧ c ≠ [] :=
  ⟨chunksGo_flatten n hn l.length l (Nat.le_refl _),
    fun c hc => chunksGo_mem n hn l.length l c hc⟩

theorem chunkIdxOf_of_mem_chunkEvents (handler : α → Except String Unit) (k : Nat)
    (b : List α) (e : BatchEv) (he : e ∈ chunkEvents handler k b) : chunkIdxOf e = k := by
  simp only [chunkEvents, List.mem_append, List.mem_map, List.mem_singleton] at he
  rcases he with ⟨p, _, hp⟩ | he
  · rw [← hp]; rfl
  · rw [he]; rfl

theorem chunkIdxOf_of_mem_batchLoop (handler : α → Except String Unit) :
    ∀ (bs : List (List α)) (k : Nat) (e : BatchEv), e ∈ batchLoop handler k bs →
      k ≤ chunkIdxOf e := by
  intro bs
  induction bs with
  | nil => intro k e he; simp [batchLoop] at he
  | cons b bs ih =>
    intro k e he
    simp only [batchLoop, List.mem_append] at he
    rcases he with he | he
    · rw [chunkIdxOf_of_mem_chunkEvents handler k b e he]
    · exact Nat.le_of_succ_le (ih (k + 1) e he)

theorem batchLoop_pairwise (handler : α → Except String Unit) :
    ∀ (bs : List (List α)) (k : Nat),
      (batchLoop handler k bs).Pairwise (fun e1 e2 => chunkIdxOf e1 ≤ chunkIdxOf e2) := by
  intro bs
  induction bs with
  | nil => intro k; exact List.Pairwise.nil
  | cons b bs ih =>
    intro k
    rw [batchLoop, List.pairwise_append]
    refine ⟨?_, ih (k + 1), ?_⟩
    · apply List.pairwise_of_forall_mem_list
      intro e1 h1 e2 h2
      rw [chunkIdxOf_of_mem_chunkEvents handler k b e1 h1,
        chunkIdxOf_of_mem_chunkEvents handler k b e2 h2]
    · intro e1 h1 e2 h2
      rw [chunkIdxOf_of_mem_chunkEvents handler k b e1 h1]
      exact Nat.le_of_succ_le (chunkIdxOf_of_mem_batchLoop handler bs (k + 1) e2 h2)

theorem batchLoop_filter (handler : α → Except String Unit) :
    ∀ (bs : List (List α)) (k0 j : Nat) (c : List α), bs[j]? = some c →
      (batchLoop handler k0 bs).filter (fun e => chunkIdxOf e == k0 + j) =
        chunkEvents handler (k0 + j) c := by
  intro bs
  induction bs with
  | nil => intro k0 j ck hc; simp at hc
  | cons b bs ih =>
    intro k0 j ck hc
    cases j with
    | zero =>
      simp only [List.getElem?_cons_zero, Option.some.injEq] at hc
      subst hc
      rw [batchLoop, List.filter_append, Nat.add_zero]
      have h1 : (chunkEvents handler k0 b).filter (fun e => chunkIdxOf e == k0) =
          chunkEvents handler k0 b := by
        apply List.filter_eq_self.mpr
        intro e he
        simp [chunkIdxOf_of_mem_chunkEvents handler k0 b e he]
      have h2 : (batchLoop handler (k0 + 1) bs).filter (fun e => chunkIdxOf e == k0) = [] := by
        apply List.filter_eq_nil_iff.mpr
        intro e he
        have := chunkIdxOf_of_mem_batchLoop handler bs (k0 + 1) e he
        simp only [beq_iff_eq]
        omega
      rw [h1, h2, List.append_nil]
    | succ j' =>
      simp only [List.getElem?_cons_succ] at hc
      rw [batchLoop, List.filter_append]
      have h1 : (chunkEvents handler k0 b).filter (fun e => chunkIdxOf e == k0 + (j' + 1)) =
          [] := by
        apply List.filter_eq_nil_iff.mpr
        intro e he
        have := chunkIdxOf_of_mem_chunkEvents handler k0 b e he
        simp only [beq_iff_eq]
        omega
      have h2 := ih (k0 + 1) j' ck hc
      rw [h1, List.nil_append]
      have harith : k0 + 1 + j' = k0 + (j' + 1) := by omega
      rw [harith] at h2
      exact h2

theorem invoke_mem_chunkEvents (handler : α → Except String Unit) (k : Nat)
    (ck : List α) (i : Nat) (m : α) (hm : ck[i]? = some m) :
    BatchEv.invoke k i (successFlag handler m) ∈ chunkEvents handler k ck := by
  simp only [chunkEvents, List.mem_append, List.mem_map]
  left
  refine ⟨(i, m), ?_, rfl⟩
  rw [List.mem_enum_iff_getElem?]
  exact hm

/-- C3: for every input list, the batch processor slices it into consecutive
chunks of at most 8 (their concatenation, in order, is the input and every
chunk is nonempty of length ≤ 8); the run's event trace is ordered by chunk —
every settlement of chunk `k` (and its `chunkDone` barrier) precedes every
event of chunk `k+1`, since `Promise.allSettled` is awaited before the loop
advances; the events of chunk `k` are exactly one settlement per message of
that chunk followed by the chunk's log; and every message of a chunk settles
with the flag of its own handler invocation — a throw for one message (flag
`false`) leaves every sibling's settlement in the trace. -/
theorem c3_bounded_chunks_barrier_isolation (handler : α → Except String Unit)
    (messages : List α) :
    ((chunkList 8 messages).flatten = messages ∧
      ∀ c ∈ chunkList 8 messages, c.length ≤ 8 ∧ c ≠ []) ∧
    (processBatchMessages handler messages).Pairwise
      (fun e1 e2 => chunkIdxOf e1 ≤ chunkIdxOf e2) ∧
    (∀ (k : Nat) (ck : List α), (chunkList 8 messages)[k]? = some ck →
      (processBatchMessages handler messages).filter (fun e => chunkIdxOf e == k) =
        chunkEvents handler k ck ∧
      ∀ (i : Nat) (m : α), ck[i]? = some m →
        BatchEv.invoke k i (successFlag handler m) ∈
          processBatchMessages handler messages) := by
  refine ⟨chunkList_partition 8 (by omega) messages, batchLoop_pairwise handler _ 0, ?_⟩
  intro k ck hc
  have hfilter := batchLoop_filter handler (chunkList 8 messages) 0 k ck hc
  rw [Nat.zero_add] at hfilter
  refine ⟨hfilter, ?_⟩
  intro i m hm
  have hmem := invoke_mem_chunkEvents handler k ck i m hm
  rw [← hfilter] at hmem
  exact List.mem_of_mem_filter hmem

theorem c3_witness :
    ((chunkList 8 [0, 1, 2, 3, 4, 5, 6, 7, 8, 9])[0]? = some [0, 1, 2, 3, 4, 5, 6, 7] ∧
      ([3][0]? = some 3)) ∧
    BatchEv.invoke 0 3
        (successFlag (fun n : Nat => if n = 3 then .error "boom" else .ok ()) 3) ∈
      processBatchMessages (fun n : Nat => if n = 3 then .error "boom" else .ok ())
        [0, 1, 2, 3, 4, 5, 6, 7, 8, 9] :=
  ⟨⟨by decide, by decide⟩,
    ((c3_bounded_chunks_barrier_isolation
        (fun n : Nat => if n = 3 then .error "boom" else .ok ())
        [0, 1, 2, 3, 4, 5, 6, 7, 8, 9]).2.2 0 [0, 1, 2, 3, 4, 5, 6, 7]
      (by decide)).2 3 3 (by decide)⟩

/-- C4 evaluated at a failing input: with a 2-message chunk whose second
handler invocation throws, the `Batch completed` log reports
`(successful, failed) = (2, 0)` — because the callback's `catch` fulfils the
promise, every result counts as `fulfilled` — while the number of invocations
that actually threw is 1.  The logged aggregate does not equal the actual
per-message outcomes; the per-chunk log always reports `failed = 0`. -/
theorem c4_divergence :
    chunkLog (fun n : Nat => if n = 1 then .error "boom" else .ok ()) [0, 1] = (2, 0) ∧
    thrownCount (fun n : Nat => if n = 1 then .error "boom" else .ok ()) [0, 1] = 1 := by
  decide

/-! ## Idempotency middleware — `idempotencyMiddleware` (idempotency middleware)

The middleware applies only to POST/PUT/PATCH; a missing `X-Idempotency-Key`
header passes through untouched; a key failing the version-4 UUID regex
`/^[0-9a-f]\x7b8\x7d-[0-9a-f]\x7b4\x7d-4[0-9a-f]\x7b3\x7d-[89ab][0-9a-f]\x7b3\x7d-[0-9a-f]\x7b12\x7d$/i`
is answered 400 `INVALID_IDEMPOTENCY_KEY` before the cache is touched; a cache
hit replays the stored response; otherwise `res.json` is overridden (to store
the response later, off the response path) and control passes to the handler.
The `idempotencyService` is an external collaborator, modelled as an oracle.
-/

/-- A hexadecimal digit of the case-insensitive regex: `[0-9a-f]` under `/i`. -/
def isHexDigit (c : Char) : Bool :=
  (48 ≤ c.toNat && c.toNat ≤ 57) || (97 ≤ c.toNat && c.toNat ≤ 102) ||
    (65 ≤ c.toNat && c.toNat ≤ 70)

/-- The UUID variant nibble `[89ab]` under `/i`. -/
def isVariantChar (c : Char) : Bool :=
  (['8', '9', 'a', 'b', 'A', 'B'] : List Char).contains c

/-- Consume exactly `n` hex digits from the front. -/
def hexRun : Nat → List Char → Option (List Char)
  | 0, cs => some cs
  | _ + 1, [] => none
  | n + 1, ch :: cs => if isHexDigit ch then hexRun n cs else none

/-- Consume one expected literal character. -/
def expectChar (c : Char) : List Char → Option (List Char)
  | [] => none
  | ch :: cs => if ch = c then some cs else none

/-- Consume the variant nibble `[89ab]` (case-insensitive). -/
def expectVariant : List Char → Option (List Char)
  | [] => none
  | ch :: cs => if isVariantChar ch then some cs else none

/-- The middleware's regex test: 8 hex digits, `-`, 4 hex, `-`, the literal
version digit `4`, 3 hex, `-`, a variant character `[89ab]`, 3 hex, `-`,
12 hex, anchored at both ends. -/
def isUuidV4 (s : String) : Bool :=
  (Option.isSome <| do
    let r1 ← hexRun 8 s.data
    let r2 ← expectChar '-' r1
    let r3 ← hexRun 4 r2
    let r4 ← expectChar '-' r3
    let r5 ← expectChar '4' r4
    let r6 ← hexRun 3 r5
    let r7 ← expectChar '-' r6
    let r8 ← expectVariant r7
    let r9 ← hexRun 3 r8
    let r10 ← expectChar '-' r9
    let r11 ← hexRun 12 r10
    if r11.isEmpty then some () else none)

/-- The request fields the idempotency middleware reads. -/
structure IdemRequest where
  method : String
  idempotencyKey : Option String
  lawFirm : String
  path : String

/-- A response cached by the idempotency store. -/
structure CachedResponse where
  status : Nat
  body : String
deriving DecidableEq

/-- The decision the middleware takes on a request.  `next wrapped` means the
business handler runs (`wrapped` records whether `res.json` was overridden to
capture the response for the store). -/
inductive IdemAction where
  | next (wrapped : Bool)
  | rejectInvalidKey
  | cachedReplay (status : Nat) (body : String)
deriving DecidableEq

/-- `idempotencyMiddleware` as a decision function.  `check` is the outcome of
`idempotencyService.checkIdempotency` (`.error` when it throws).  Returns the
action together with whether the cache was consulted. -/
def idempotencyMiddleware (req : IdemRequest)
    (check : Except String (Bool × Option CachedResponse)) : IdemAction × Bool :=
  if req.method ∈ (["POST", "PUT", "PATCH"] : List String) then
    match req.idempotencyKey with
    | none => (.next false, false)
    | some key =>
      if isUuidV4 key then
        match check with
        | .error _ => (.next false, true)
        | .ok (ex, some cached) =>
          if ex then (.cachedReplay cached.status cached.body, true)
          else (.next true, true)
        | .ok (_, none) => (.next true, true)
      else (.rejectInvalidKey, false)
  else (.next false, false)

/-- C5: a mutating request with a syntactically invalid idempotency key is
answered 400 `INVALID_IDEMPOTENCY_KEY` without consulting the cache and
without the business handler running; a request with no key, or a
non-mutating request, passes straight through (no cache consult, no response
capture). -/
theorem c5_invalid_key_rejected_before_cache :
    (∀ (req : IdemRequest) (check : Except String (Bool × Option CachedResponse))
        (key : String),
      req.method ∈ (["POST", "PUT", "PATCH"] : List String) →
      req.idempotencyKey = some key →
      isUuidV4 key = false →
      idempotencyMiddleware req check = (.rejectInvalidKey, false)) ∧
    (∀ (req : IdemRequest) (check : Except String (Bool × Option CachedResponse)),
      req.method ∈ (["POST", "PUT", "PATCH"] : List String) →
      req.idempotencyKey = none →
      idempotencyMiddleware req check = (.next false, false)) ∧
    (∀ (req : IdemRequest) (check : Except String (Bool × Option CachedResponse)),
      req.method ∉ (["POST", "PUT", "PATCH"] : List String) →
      idempotencyMiddleware req check = (.next false, false)) := by
  refine ⟨?_, ?_, ?_⟩
  · intro req check key hm hk hbad
    simp [idempotencyMiddleware, hm, hk, hbad]
  · intro req check hm hk
    simp [idempotencyMiddleware, hm, hk]
  · intro req check hm
    simp [idempotencyMiddleware, hm]

theorem c5_witness :
    isUuidV4 "11111111-1111-4111-8111-111111111111" = true ∧
    isUuidV4 "not-a-uuid" = false ∧
    idempotencyMiddleware ⟨"POST", some "not-a-uuid", "firmA", "/api/v1/demographics"⟩
        (.ok (false, none)) = (.rejectInvalidKey, false) ∧
    idempotencyMiddleware ⟨"POST", none, "firmA", "/api/v1/demographics"⟩
        (.ok (false, none)) = (.next false, false) ∧
    idempotencyMiddleware ⟨"GET", some "not-a-uuid", "firmA", "/api/v1/demographics"⟩
        (.ok (false, none)) = (.next false, false) :=
  ⟨by decide, by decide,
    (c5_invalid_key_rejected_before_cache).1
      ⟨"POST", some "not-a-uuid", "firmA", "/api/v1/demographics"⟩
      (.ok (false, none)) "not-a-uuid" (by decide) rfl (by decide),
    (c5_invalid_key_rejected_before_cache).2.1
      ⟨"POST", none, "firmA", "/api/v1/demographics"⟩ (.ok (false, none)) (by decide) rfl,
    (c5_invalid_key_rejected_before_cache).2.2
      ⟨"GET", some "not-a-uuid", "firmA", "/api/v1/demographics"⟩
      (.ok (false, none)) (by decide)⟩

/-! ### The overridden `res.json` (store discipline) -/

/-- Events on the response path once the business handler calls `res.json`:
the override schedules the store with `setImmediate` and immediately calls the
original `res.json`, so the send precedes the store attempt; the store's own
`try/catch` logs a failure and swallows it.  `raised` models an exception
escaping to the caller — the middleware never emits it. -/
inductive RespEv where
  | sent (status : Nat) (body : String)
  | storeSucceeded
  | storeFailureLogged (err : String)
  | raised (err : String)
deriving DecidableEq

/-- The overridden `res.json(body)`: return `originalJson(body)` (response
sent, unchanged), then the deferred store runs and either succeeds or has its
error logged. -/
def wrappedJson (store : Except String Unit) (status : Nat) (body : String) :
    List RespEv :=
  RespEv.sent status body ::
    (match store with
      | .ok _ => [RespEv.storeSucceeded]
      | .error e => [RespEv.storeFailureLogged e])

/-- C6: for every store outcome, the response is sent first (the store does
not delay the response path) and is identical — same status, same body —
whether the store succeeds or fails; a store failure is logged; and no
exception is ever raised to the caller. -/
theorem c6_store_failure_never_raises :
    (∀ (store : Except String Unit) (status : Nat) (body : String),
      (wrappedJson store status body).head? = some (.sent status body)) ∧
    (∀ (s1 s2 : Except String Unit) (status : Nat) (body : String),
      (wrappedJson s1 status body).head? = (wrappedJson s2 status body).head?) ∧
    (∀ (status : Nat) (body : String) (e : String),
      RespEv.storeFailureLogged e ∈ wrappedJson (.error e) status body) ∧
    (∀ (store : Except String Unit) (status : Nat) (body : String) (e : String),
      RespEv.raised e ∉ wrappedJson store status body) := by
  refine ⟨?_, ?_, ?_, ?_⟩
  · intro store status body
    cases store <;> rfl
  · intro s1 s2 status body
    cases s1 <;> cases s2 <;> rfl
  · intro status body e
    simp [wrappedJson]
  · intro store status body e
    cases store <;> simp [wrappedJson]

theorem c6_witness :
    (wrappedJson (.error "db down") 201 "created-body").head? =
        some (.sent 201 "created-body") ∧
    RespEv.storeFailureLogged "db down" ∈ wrappedJson (.error "db down") 201 "created-body" ∧
    RespEv.raised "db down" ∉ wrappedJson (.error "db down") 201 "created-body" :=
  ⟨(c6_store_failure_never_raises).1 (.error "db down") 201 "created-body",
    (c6_store_failure_never_raises).2.2.1 201 "created-body" "db down",
    (c6_store_failure_never_raises).2.2.2 (.error "db down") 201 "created-body" "db down"⟩

/-! ## Webhook dispatch — `processBatchWebhookMessage` (batchProcessor.ts)

`crypto.createHmac('sha256', secret).update(s).digest('hex')` is an external
primitive, abstracted as the oracle `hmacHex`; the network is the oracle
`fetchOracle`, which either returns a response status or has the
`AbortSignal.timeout(10000)` fire.  `payloadJson` is `JSON.stringify(payload)`
(the `|| \x7b\x7d` fallback in the signature only matters for a null payload,
which the dispatch never passes).
-/

/-- The one HTTP request the dispatcher issues. -/
structure WebhookRequest where
  url : String
  method : String
  contentType : String
  signature : String
  body : String
  timeoutMs : Nat
deriving DecidableEq

/-- What a single fetch attempt observes. -/
inductive FetchOutcome where
  | response (status : Nat) (statusText : String)
  | timeout
deriving DecidableEq

/-- `generateBatchWebhookSignature`: hex HMAC-SHA256 of the JSON-serialized
payload under the secret. -/
def generateBatchWebhookSignature (hmacHex : String → String → String)
    (secret payloadJson : String) : String :=
  hmacHex secret payloadJson

/-- `response.ok`: status in 200..299. -/
def statusOk (status : Nat) : Bool :=
  200 ≤ status && status < 300

/-- Did the call throw to its caller? -/
def throwsToCaller (r : Except String Nat) : Bool :=
  match r with
  | .ok _ => false
  | .error _ => true

/-- `processBatchWebhookMessage`: resolve the target URL
(`payload.webhook_url || process.env.DEFAULT_WEBHOOK_URL`), throwing when
absent; issue one signed POST with a hard 10000 ms timeout; throw on timeout
or on `!response.ok`; no retry of its own.  Returns the list of requests
issued alongside the outcome. -/
def processBatchWebhookMessage (hmacHex : String → String → String)
    (secret : String) (webhookUrl defaultUrl : Option String) (payloadJson : String)
    (fetchOracle : WebhookRequest → FetchOutcome) :
    List WebhookRequest × Except String Nat :=
  match webhookUrl.orElse (fun _ => defaultUrl) with
  | none => ([], .error "Webhook URL not provided")
  | some url =>
    let req : WebhookRequest :=
      ⟨url, "POST", "application/json",
        generateBatchWebhookSignature hmacHex secret payloadJson, payloadJson, 10000⟩
    match fetchOracle req with
    | .timeout => ([req], .error "This operation was aborted")
    | .response status statusText =>
      if statusOk status then ([req], .ok status)
      else ([req], .error ("Webhook delivery failed: " ++ toString status ++ " " ++ statusText))

/-- C7: with a webhook URL present, the dispatcher issues exactly one POST —
no retries — whose signature header is the hex HMAC-SHA256 of the
JSON-serialized payload under the secret, whose body is that same JSON and
whose timeout is the hard 10000 ms; and it throws to its caller precisely
when the attempt times out or returns a non-2xx status. -/
theorem c7_signed_post_throws_iff_failure (hmacHex : String → String → String)
    (secret u payloadJson : String) (defaultUrl : Option String)
    (fetchOracle : WebhookRequest → FetchOutcome)
    (req : WebhookRequest)
    (hreq : req = ⟨u, "POST", "application/json", hmacHex secret payloadJson,
      payloadJson, 10000⟩) :
    (processBatchWebhookMessage hmacHex secret (some u) defaultUrl payloadJson
        fetchOracle).1 = [req] ∧
    req.signature = generateBatchWebhookSignature hmacHex secret payloadJson ∧
    req.body = payloadJson ∧ req.timeoutMs = 10000 ∧ req.method = "POST" ∧
    throwsToCaller (processBatchWebhookMessage hmacHex secret (some u) defaultUrl
        payloadJson fetchOracle).2 =
      (match fetchOracle req with
        | .timeout => true
        | .response status _ => !statusOk status) := by
  subst hreq
  simp only [processBatchWebhookMessage, generateBatchWebhookSignature, Option.orElse]
  cases hf : fetchOracle ⟨u, "POST", "application/json", hmacHex secret payloadJson,
      payloadJson, 10000⟩ with
  | timeout => simp [hf, throwsToCaller]
  | response status statusText =>
    by_cases hs : statusOk status = true
    · simp [hf, hs, throwsToCaller]
    · simp [hf, hs, throwsToCaller]

theorem c7_witness :
    (⟨"https://example.test/hook", "POST", "application/json",
        "deadbeef", "payload-json", 10000⟩ : WebhookRequest) =
      ⟨"https://example.test/hook", "POST", "application/json",
        (fun _ _ => "deadbeef") "secret" "payload-json", "payload-json", 10000⟩ ∧
    (processBatchWebhookMessage (fun _ _ => "deadbeef") "secret"
        (some "https://example.test/hook") none "payload-json"
        (fun _ => .response 500 "Internal Server Error")).1 =
      [⟨"https://example.test/hook", "POST", "application/json",
        "deadbeef", "payload-json", 10000⟩] ∧
    throwsToCaller (processBatchWebhookMessage (fun _ _ => "deadbeef") "secret"
        (some "https://example.test/hook") none "payload-json"
        (fun _ => .response 500 "Internal Server Error")).2 = true :=
  ⟨rfl,
    (c7_signed_post_throws_iff_failure (fun _ _ => "deadbeef") "secret"
      "https://example.test/hook" "payload-json" none
      (fun _ => .response 500 "Internal Server Error") _ rfl).1,
    Eq.trans
      ((c7_signed_post_throws_iff_failure (fun _ _ => "deadbeef") "secret"
        "https://example.test/hook" "payload-json" none
        (fun _ => .response 500 "Internal Server Error") _ rfl).2.2.2.2.2)
      (by decide)⟩

/-! ## Rate-limit headers — `authMiddleware` (auth middleware) and the
`submitDemographics` Azure Functions handler

`rateLimiter.checkRateLimit` and `apiKeyService.validateApiKey` live outside
the middleware; their results are oracle inputs.  `Date.prototype.toISOString`
is the oracle `isoOf`; times are epoch milliseconds.
-/

/-- The result object of `rateLimiter.checkRateLimit`. -/
structure RateLimitResult where
  allowed : Bool
  limit : Nat
  remaining : Nat
  resetTimeMs : Int
  windowType : String

/-- `Math.ceil(d / 1000)` on an integer millisecond difference. -/
def jsCeilDiv1000 (d : Int) : Int :=
  -((-d).fdiv 1000)

/-- The four rate-limit headers `res.set` attaches in both branches. -/
def rateLimitHeaders (isoOf : Int → String) (r : RateLimitResult) :
    List (String × String) :=
  [("X-RateLimit-Limit", toString r.limit),
    ("X-RateLimit-Remaining", toString r.remaining),
    ("X-RateLimit-Reset", isoOf r.resetTimeMs),
    ("X-RateLimit-Window", r.windowType)]

/-- Outcome of the Express `authMiddleware`, with the headers set on the
response so far. -/
inductive AuthOutcome where
  | next (headers : List (String × String))
  | unauthorized (code : String)
  | tooMany (headers : List (String × String))
deriving DecidableEq

/-- The headers an `authMiddleware` outcome carries. -/
def authHeaders : AuthOutcome → List (String × String)
  | .next hs => hs
  | .unauthorized _ => []
  | .tooMany hs => hs

/-- Options of the middleware factory. -/
structure AuthOptions where
  allowAnonymous : Bool
  skipRateLimit : Bool

/-- The Express `authMiddleware`: anonymous routes skip everything; a missing
key is 401 `MISSING_API_KEY`; an invalid key 401 `INVALID_API_KEY`; then,
unless rate limiting is skipped, a denied check answers 429 with the four
rate-limit headers plus `Retry-After = Math.ceil((resetTime - now)/1000)`,
and an allowed check attaches the four headers and calls `next()`. -/
def authMiddleware (opts : AuthOptions) (apiKeyHeader : Option String)
    (isValid : Bool) (rl : RateLimitResult) (isoOf : Int → String) (now : Int) :
    AuthOutcome :=
  if opts.allowAnonymous then .next []
  else
    match apiKeyHeader with
    | none => .unauthorized "MISSING_API_KEY"
    | some _ =>
      if isValid then
        if opts.skipRateLimit then .next []
        else if rl.allowed then .next (rateLimitHeaders isoOf rl)
        else
          .tooMany (rateLimitHeaders isoOf rl ++
            [("Retry-After", toString (jsCeilDiv1000 (rl.resetTimeMs - now)))])
      else .unauthorized "INVALID_API_KEY"

/-- Outcome of the Azure Functions `submitDemographics` handler with the
headers its `HttpResponse` carries. -/
inductive SubmitOutcome where
  | unauthorized
  | tooMany (headers : List (String × String))
  | badRequest
  | created (headers : List (String × String))
deriving DecidableEq

/-- The Azure Functions `submitDemographics` handler: 401 without headers on a
missing/invalid key; on a denied rate-limit check a 429 whose headers are the
four `X-RateLimit-*` entries only (no `Retry-After`); 400 without headers on
body validation failure; on success a 201 carrying only
`X-RateLimit-Limit` / `-Remaining` / `-Reset` (no `X-RateLimit-Window`). -/
def submitDemographics (apiKeyHeader : Option String) (isValid : Bool)
    (rl : RateLimitResult) (bodyValid : Bool) (isoOf : Int → String) :
    SubmitOutcome :=
  match apiKeyHeader with
  | none => .unauthorized
  | some _ =>
    if isValid then
      if rl.allowed then
        if bodyValid then
          .created [("X-RateLimit-Limit", toString rl.limit),
            ("X-RateLimit-Remaining", toString rl.remaining),
            ("X-RateLimit-Reset", isoOf rl.resetTimeMs)]
        else .badRequest
      else
        .tooMany [("X-RateLimit-Limit", toString rl.limit),
          ("X-RateLimit-Remaining", toString rl.remaining),
          ("X-RateLimit-Reset", isoOf rl.resetTimeMs),
          ("X-RateLimit-Window", rl.windowType)]
    else .unauthorized

/-- C8 counterexample: a rate-limited call gated by the `submitDemographics`
Azure Functions handler is answered 429 without a `Retry-After` header, and
the same handler's success response carries no `X-RateLimit-Window` header —
so not every gated response matches the claimed header set. -/
theorem c8_counterexample :
    submitDemographics (some "key") true
        ⟨false, 5, 0, 60000, "minute"⟩ true (fun _ => "1970-01-01T00:01:00.000Z") =
      .tooMany [("X-RateLimit-Limit", "5"), ("X-RateLimit-Remaining", "0"),
        ("X-RateLimit-Reset", "1970-01-01T00:01:00.000Z"),
        ("X-RateLimit-Window", "minute")] ∧
    ("Retry-After" ∉
      [("X-RateLimit-Limit", "5"), ("X-RateLimit-Remaining", "0"),
        ("X-RateLimit-Reset", "1970-01-01T00:01:00.000Z"),
        ("X-RateLimit-Window", "minute")].map Prod.fst) ∧
    submitDemographics (some "key") true
        ⟨true, 5, 4, 60000, "minute"⟩ true (fun _ => "1970-01-01T00:01:00.000Z") =
      .created [("X-RateLimit-Limit", "5"), ("X-RateLimit-Remaining", "4"),
        ("X-RateLimit-Reset", "1970-01-01T00:01:00.000Z")] ∧
    ("X-RateLimit-Window" ∉
      [("X-RateLimit-Limit", "5"), ("X-RateLimit-Remaining", "4"),
        ("X-RateLimit-Reset", "1970-01-01T00:01:00.000Z")].map Prod.fst) := by
  refine ⟨rfl, by decide, rfl, by decide⟩

/-- C8 (amended): in the Express `authMiddleware`, every gated (authenticated,
rate-limit-checked) call carries the four `X-RateLimit-*` headers whether
allowed or rejected, and a 429 additionally carries
`Retry-After = ceil((resetAt − now)/1000)`; the Azure Functions
`submitDemographics` handler, however, sends the four `X-RateLimit-*` headers
without any `Retry-After` on its 429, and only Limit/Remaining/Reset (no
`X-RateLimit-Window`) on its 201. -/
theorem c8_amended (opts : AuthOptions) (key : String) (rl : RateLimitResult)
    (isoOf : Int → String) (now : Int) (bodyValid : Bool)
    (hanon : opts.allowAnonymous = false) (hskip : opts.skipRateLimit = false) :
    (("X-RateLimit-Limit", toString rl.limit) ∈
        authHeaders (authMiddleware opts (some key) true rl isoOf now) ∧
      ("X-RateLimit-Remaining", toString rl.remaining) ∈
        authHeaders (authMiddleware opts (some key) true rl isoOf now) ∧
      ("X-RateLimit-Reset", isoOf rl.resetTimeMs) ∈
        authHeaders (authMiddleware opts (some key) true rl isoOf now) ∧
      ("X-RateLimit-Window", rl.windowType) ∈
        authHeaders (authMiddleware opts (some key) true rl isoOf now)) ∧
    (rl.allowed = false →
      authMiddleware opts (some key) true rl isoOf now =
        .tooMany (rateLimitHeaders isoOf rl ++
          [("Retry-After", toString (jsCeilDiv1000 (rl.resetTimeMs - now)))])) ∧
    (rl.allowed = false →
      submitDemographics (some key) true rl bodyValid isoOf =
        .tooMany (rateLimitHeaders isoOf rl) ∧
      "Retry-After" ∉ (rateLimitHeaders isoOf rl).map Prod.fst) ∧
    (rl.allowed = true → bodyValid = true →
      submitDemographics (some key) true rl bodyValid isoOf =
        .created [("X-RateLimit-Limit", toString rl.limit),
          ("X-RateLimit-Remaining", toString rl.remaining),
          ("X-RateLimit-Reset", isoOf rl.resetTimeMs)] ∧
      "X-RateLimit-Window" ∉
        (["X-RateLimit-Limit", "X-RateLimit-Remaining", "X-RateLimit-Reset"] :
          List String)) := by
  refine ⟨?_, ?_, ?_, ?_⟩
  · cases hrl : rl.allowed with
    | true =>
      simp [authMiddleware, hanon, hskip, hrl, authHeaders, rateLimitHeaders]
    | false =>
      simp [authMiddleware, hanon, hskip, hrl, authHeaders, rateLimitHeaders]
  · intro hrl
    simp [authMiddleware, hanon, hskip, hrl]
  · intro hrl
    refine ⟨by simp [submitDemographics, hrl, rateLimitHeaders], ?_⟩
    simp [rateLimitHeaders]
  · intro hrl hbody
    refine ⟨by simp [submitDemographics, hrl, hbody], by decide⟩

theorem c8_amended_witness :
    ((⟨false, false⟩ : AuthOptions).allowAnonymous = false ∧
      (⟨false, false⟩ : AuthOptions).skipRateLimit = false) ∧
    ("X-RateLimit-Window", "minute") ∈
      authHeaders (authMiddleware ⟨false, false⟩ (some "key") true
        ⟨false, 5, 0, 60000, "minute"⟩ (fun _ => "1970-01-01T00:01:00.000Z") 0) ∧
    authMiddleware ⟨false, false⟩ (some "key") true
        ⟨false, 5, 0, 60000, "minute"⟩ (fun _ => "1970-01-01T00:01:00.000Z") 0 =
      .tooMany (rateLimitHeaders (fun _ => "1970-01-01T00:01:00.000Z")
          ⟨false, 5, 0, 60000, "minute"⟩ ++
        [("Retry-After", toString (jsCeilDiv1000 ((60000 : Int) - 0)))]) :=
  ⟨⟨rfl, rfl⟩,
    (c8_amended ⟨false, false⟩ "key" ⟨false, 5, 0, 60000, "minute"⟩
      (fun _ => "1970-01-01T00:01:00.000Z") 0 true rfl rfl).1.2.2.2,
    (c8_amended ⟨false, false⟩ "key" ⟨false, 5, 0, 60000, "minute"⟩
      (fun _ => "1970-01-01T00:01:00.000Z") 0 true rfl rfl).2.1 rfl⟩

/-! ## Enqueue — `FifoQueueService.sendMessage` (fifoQueue service)

`sendMessage` fills in `id` (a fresh uuid) and `created_at`, wraps the message
into a `ServiceBusMessage` (body, sessionId, contentType `application/json`,
subject = type) and hands it to the sender.  The body of the `try` contains no
check of any field; in particular the payload is never inspected.
-/

/-- The Service Bus envelope fields `sendMessage` constructs (scheduling and
TTL elided — they do not depend on the payload). -/
structure SBMessage (α : Type) where
  messageId : String
  bodyType : String
  bodyPayload : α
  sessionId : String
  contentType : String
  subject : String
deriving DecidableEq

/-- What an enqueue attempt can do: hand an envelope to the queue sender, or
reject the message with a validation error before sending. -/
inductive SendResult (α : Type) where
  | sent (msg : SBMessage α)
  | validationError (reason : String)
deriving DecidableEq

/-- `FifoQueueService.sendMessage`: build the envelope around the given
payload and send it — there is no validation branch. `uuid` stands for the
fresh `uuidv4()`. -/
def sendMessage (uuid msgType : String) (payload : α) (sessionId : String) :
    SendResult α :=
  .sent ⟨uuid, msgType, payload, sessionId, "application/json", msgType⟩

/-- Discriminator: did the enqueue reject with a validation error? -/
def isValidationError : SendResult α → Bool
  | .sent _ => false
  | .validationError _ => true

/-- C9 counterexample: enqueueing a message whose payload is empty does not
reject with a validation error — the message is sent to the queue carrying
the empty payload. -/
theorem c9_counterexample :
    sendMessage "id-1" "demographics" ("" : String) "demographics_firm_a" =
      .sent ⟨"id-1", "demographics", "", "demographics_firm_a",
        "application/json", "demographics"⟩ ∧
    isValidationError
      (sendMessage "id-1" "demographics" ("" : String) "demographics_firm_a") = false := by
  exact ⟨rfl, rfl⟩

/-- C9 (amended): `sendMessage` performs no payload validation — for every
payload, the empty one included, the enqueue never returns a validation error
and the message handed to the queue carries the payload unchanged (so nothing
is silently dropped either: the message is sent). -/
theorem c9_amended (uuid msgType : String) (payload : α) (sessionId : String) :
    (∀ reason, sendMessage uuid msgType payload sessionId ≠ .validationError reason) ∧
    ∃ msg, sendMessage uuid msgType payload sessionId = .sent msg ∧
      msg.bodyPayload = payload ∧ msg.sessionId = sessionId := by
  refine ⟨?_, ?_⟩
  · intro reason h
    simp [sendMessage] at h
  · exact ⟨_, rfl, rfl, rfl⟩

theorem c9_amended_witness :
    sendMessage "id-2" "webhook" ("" : String) "webhook_firm_b" ≠
      .validationError "empty payload" :=
  (c9_amended "id-2" "webhook" ("" : String) "webhook_firm_b").1 "empty payload"

/-! ## Tenant-scoped retrieval — `DatabaseService.getDemographicById` and the
demographics `GET /:id` route

The SQL store is modelled as the list of its `Demographics` rows; the query
`SELECT * FROM Demographics WHERE id = @id AND partitionKey = @partitionKey`
is its filter, and the service returns `null` on an empty recordset, else the
first row.
-/

/-- A `Demographics` row, reduced to the columns the access check reads; all
remaining columns are bundled into `rest`. -/
structure DemographicRecord where
  id : String
  partitionKey : String
  rest : String
deriving DecidableEq

/-- `DatabaseService.getDemographicById(id, lawFirm)`. -/
def getDemographicById (db : List DemographicRecord) (id lawFirm : String) :
    Option DemographicRecord :=
  (db.filter (fun r => r.id == id && r.partitionKey == lawFirm)).head?

/-- The demographics `GET /:id` route outcome: 404 `DEMOGRAPHIC_NOT_FOUND`
when the lookup returns null, else 200 with the record. -/
inductive GetByIdOutcome where
  | notFound
  | ok (record : DemographicRecord)
deriving DecidableEq

/-- The `GET /:id` handler: look the id up under the *authenticated* law firm
(`req.auth.lawFirm`), never under a caller-chosen one. -/
def getDemographicByIdRoute (db : List DemographicRecord) (id authLawFirm : String) :
    GetByIdOutcome :=
  match getDemographicById db id authLawFirm with
  | none => .notFound
  | some r => .ok r

/-- C10: a record is returned only when its `partitionKey` equals the caller's
law firm (and its `id` the requested one); a record belonging to a different
tenant is never returned through this route; and when no record matches both
the id and the caller's law firm the route answers not-found. -/
theorem c10_tenant_isolation :
    (∀ (db : List DemographicRecord) (id firm : String) (r : DemographicRecord),
      getDemographicById db id firm = some r → r.partitionKey = firm ∧ r.id = id) ∧
    (∀ (db : List DemographicRecord) (id firm : String) (r : DemographicRecord),
      r.partitionKey ≠ firm → getDemographicByIdRoute db id firm ≠ .ok r) ∧
    (∀ (db : List DemographicRecord) (id firm : String),
      (∀ r ∈ db, ¬(r.id = id ∧ r.partitionKey = firm)) →
      getDemographicByIdRoute db id firm = .notFound) := by
  have hmain : ∀ (db : List DemographicRecord) (id firm : String) (r : DemographicRecord),
      getDemographicById db id firm = some r → r.partitionKey = firm ∧ r.id = id := by
    intro db id firm r h
    have hmem : r ∈ db.filter (fun q => q.id == id && q.partitionKey == firm) :=
      List.mem_of_mem_head? h
    have hpred := List.of_mem_filter hmem
    simp only [Bool.and_eq_true, beq_iff_eq] at hpred
    exact ⟨hpred.2, hpred.1⟩
  refine ⟨hmain, ?_, ?_⟩
  · intro db id firm r hne hok
    cases hq : getDemographicById db id firm with
    | none => simp [getDemographicByIdRoute, hq] at hok
    | some q =>
      have := (hmain db id firm q hq).1
      simp only [getDemographicByIdRoute, hq, GetByIdOutcome.ok.injEq] at hok
      exact hne (hok ▸ this)
  · intro db id firm hnone
    have hfilter : db.filter (fun q => q.id == id && q.partitionKey == firm) = [] := by
      apply List.filter_eq_nil_iff.mpr
      intro r hr
      have := hnone r hr
      simp only [Bool.and_eq_true, beq_iff_eq]
      intro hcontra
      exact this hcontra
    simp [getDemographicByIdRoute, getDemographicById, hfilter]

theorem c10_witness :
    getDemographicById [⟨"rec-1", "firmA", "row"⟩] "rec-1" "firmA" =
      some ⟨"rec-1", "firmA", "row"⟩ ∧
    (⟨"rec-1", "firmA", "row"⟩ : DemographicRecord).partitionKey = "firmA" ∧
    ((⟨"rec-1", "firmA", "row"⟩ : DemographicRecord).partitionKey ≠ "firmB" ∧
      getDemographicByIdRoute [⟨"rec-1", "firmA", "row"⟩] "rec-1" "firmB" ≠
        .ok ⟨"rec-1", "firmA", "row"⟩) ∧
    getDemographicByIdRoute [⟨"rec-1", "firmA", "row"⟩] "rec-1" "firmB" = .notFound :=
  ⟨by decide,
    ((c10_tenant_isolation).1 [⟨"rec-1", "firmA", "row"⟩] "rec-1" "firmA"
      ⟨"rec-1", "firmA", "row"⟩ (by decide)).1,
    ⟨by decide,
      (c10_tenant_isolation).2.1 [⟨"rec-1", "firmA", "row"⟩] "rec-1" "firmB"
        ⟨"rec-1", "firmA", "row"⟩ (by decide)⟩,
    (c10_tenant_isolation).2.2 [⟨"rec-1", "firmA", "row"⟩] "rec-1" "firmB"
      (by decide)⟩

end DocumentAPI
